import Mathlib

/-!
# Verification of the LECO LoRA training script (`leco_images/train_lora.py`)

Shallow embedding of the training loop of `train_lora.py`.  Tensors are
modelled elementwise (a scalar in `ℚ`, or a `List ℚ` where whole tensors
matter); the pointwise power `** 0.5` is modelled by an abstract function
`sqrt : ℚ → ℚ` passed as a parameter, since every claim below is independent
of the numerical value of the square root.  Python `int()` applied to a
non-negative float is modelled by `Int.floor` on `ℚ` followed by `Int.toNat`.
-/

namespace TrainLora

/-- The fields of the diffusers scheduler read by `prev_step`
(`scheduler.config.num_train_timesteps`, `scheduler.num_inference_steps`,
`scheduler.alphas_cumprod`, `scheduler.final_alpha_cumprod`). -/
structure SchedulerConfig where
  numTrainTimesteps : ℕ
  numInferenceSteps : ℕ
  alphasCumprod : ℤ → ℚ
  finalAlphaCumprod : ℚ

/-- Source: `prev_timestep = timestep - scheduler.config.num_train_timesteps //
scheduler.num_inference_steps` (train_lora.py line 32). -/
def prevTimestep (scheduler : SchedulerConfig) (timestep : ℤ) : ℤ :=
  timestep - (scheduler.numTrainTimesteps / scheduler.numInferenceSteps : ℕ)

/-- Source: `prev_step(model_output, timestep, scheduler, sample)` (train_lora.py
lines 31-39), elementwise on the tensors: one reverse DDIM-style step.
`sqrt` stands for the pointwise `** 0.5`. -/
def prev_step (sqrt : ℚ → ℚ) (model_output : ℚ) (timestep : ℤ)
    (scheduler : SchedulerConfig) (sample : ℚ) : ℚ :=
  let prev_timestep := prevTimestep scheduler timestep
  let alpha_prod_t := scheduler.alphasCumprod timestep
  let alpha_prod_t_prev :=
    if 0 ≤ prev_timestep then scheduler.alphasCumprod prev_timestep
    else scheduler.finalAlphaCumprod
  let beta_prod_t := 1 - alpha_prod_t
  let pred_original_sample := (sample - sqrt beta_prod_t * model_output) / sqrt alpha_prod_t
  let pred_sample_direction := sqrt (1 - alpha_prod_t_prev) * model_output
  sqrt alpha_prod_t_prev * pred_original_sample + pred_sample_direction

/-- The `alpha_prod_t_prev` value selected inside `prev_step` (line 34). -/
def alphaProdPrev (scheduler : SchedulerConfig) (timestep : ℤ) : ℚ :=
  if 0 ≤ prevTimestep scheduler timestep then
    scheduler.alphasCumprod (prevTimestep scheduler timestep)
  else scheduler.finalAlphaCumprod

/-- Criteria `torch.nn.MSELoss()` applied to two equally-shaped tensors, modelled as
lists of scalars: mean of the squared elementwise differences. -/
def mseLoss (pred target : List ℚ) : ℚ :=
  (((pred.zip target).map fun p => (p.1 - p.2) ^ 2).sum) / ((pred.zip target).length : ℚ)

/-- The function `prev_step` applied to whole tensors: elementwise over the zipped
`model_output` and `sample` lists. -/
def prevStepList (sqrt : ℚ → ℚ) (model_output : List ℚ) (timestep : ℤ)
    (scheduler : SchedulerConfig) (sample : List ℚ) : List ℚ :=
  (model_output.zip sample).map fun p => prev_step sqrt p.1 timestep scheduler p.2

/-- The loss backpropagated in one training iteration (train_lora.py lines
299 and 314): `target_sample = prev_step(target_latents, current_timestep,
noise_scheduler, denoised_latents_inp)` and then
`loss = criteria(target_sample, denoised_latents_out)` with
`criteria = torch.nn.MSELoss()`.  The three frozen predictions are in scope
at that point in the source (a multi-term loss using them is commented out,
lines 307-313), so they appear here as arguments. -/
def trainingLoss (sqrt : ℚ → ℚ) (scheduler : SchedulerConfig) (current_timestep : ℤ)
    (positive_latents neutral_latents unconditional_latents target_latents : List ℚ)
    (denoised_latents_inp denoised_latents_out : List ℚ) : ℚ :=
  let target_sample := prevStepList sqrt target_latents current_timestep scheduler
    denoised_latents_inp
  mseLoss target_sample denoised_latents_out

/-- The index computed at train_lora.py line 233,
`int(timesteps_to * 1000 / config.train.max_denoising_steps)`: float
division then truncation, i.e. the floor of the exact rational for these
non-negative operands. -/
def currentTimestepIndex (max_denoising_steps timesteps_to : ℕ) : ℕ :=
  (⌊(timesteps_to * 1000 : ℚ) / (max_denoising_steps : ℚ)⌋).toNat

/-- Source: `noise_scheduler.timesteps[...]` at lines 232-234, with the 1000-step
timetable abstracted as a function from index to timestep value. -/
def current_timestep (timesteps : ℕ → ℤ) (max_denoising_steps timesteps_to : ℕ) : ℤ :=
  timesteps (currentTimestepIndex max_denoising_steps timesteps_to)

/-- The index the spec describes: `round(t * 1000 / max_denoising_steps)`,
rounding the exact rational to the nearest integer. -/
def specRoundIndex (max_denoising_steps timesteps_to : ℕ) : ℕ :=
  (⌊(timesteps_to * 1000 : ℚ) / (max_denoising_steps : ℚ) + 1 / 2⌋).toNat

/-- The condition at train_lora.py lines 334-338 under which an intermediate
checkpoint is written at iteration `i`:
`i % config.save.per_steps == 0 and i != 0 and i != config.train.iterations - 1`. -/
def savesIntermediateAt (per_steps iterations i : ℕ) : Bool :=
  i % per_steps == 0 && i != 0 && i != iterations - 1

/-- The iteration indices at which an intermediate checkpoint is written
during a run of `iterations` steps (`for i in pbar`, `pbar = tqdm(range(
config.train.iterations))`). -/
def intermediateCheckpointSteps (per_steps iterations : ℕ) : List ℕ :=
  (List.range iterations).filter (savesIntermediateAt per_steps iterations)

/-- All checkpoint file names written by one run (lines 334-351): the
intermediate ones, `f"{name}_{i}steps.pt"` in iteration order, followed by
the unconditional final `f"{name}_last.pt"`. -/
def checkpointFiles (name : String) (per_steps iterations : ℕ) : List String :=
  ((intermediateCheckpointSteps per_steps iterations).map
    fun i => name ++ "_" ++ toString i ++ "steps.pt") ++ [name ++ "_last.pt"]

/-- The support of `torch.randint(1, config.train.max_denoising_steps-1, (1,))`
(train_lora.py lines 180-183): the half-open integer range
`[1, max_denoising_steps-1)`. -/
def timestepsToSupport (max_denoising_steps : ℕ) : Finset ℕ :=
  Finset.Ico 1 (max_denoising_steps - 1)

/-- The upper bound in `seed = random.randint(0, 2*15)` (line 210): the
source writes `2*15`, which is `30`, not `2**15`. -/
def seedUpperBound : ℕ := 2 * 15

/-- The support of `random.randint(0, 2*15)`: `random.randint` is inclusive
at both ends. -/
def seedSupport : Finset ℕ := Finset.Icc 0 seedUpperBound

/-- Which noisy latent a `train_util.predict_noise` call receives:
`denoised_latents_inp` (from the input image) or `denoised_latents_out`
(from the output image). -/
inductive LatentSource where
  | inputLatent
  | outputLatent
deriving DecidableEq, Repr

/-- Which cached prompt embedding the call is conditioned on (the second
argument of `train_util.concat_embeddings`; the first is always
`prompt_pair.unconditional`). -/
inductive CondRole where
  | positivePrompt
  | neutralPrompt
  | unconditionalPrompt
  | targetPrompt
deriving DecidableEq, Repr

/-- One `train_util.predict_noise` call of the training iteration, with the
context it runs in: whether gradients are recorded (`torch.no_grad` scope),
whether the LoRA adapter is enabled (`with network:` scope), which latent and
conditioning it receives, and the `guidance_scale` argument. -/
structure PredictNoiseCall where
  gradEnabled : Bool
  adapterEnabled : Bool
  latent : LatentSource
  cond : CondRole
  guidance_scale : ℤ
deriving DecidableEq, Repr

/-- The four `predict_noise` calls of one training iteration in source order
(train_lora.py lines 237-248, 251-262, 264-275 inside `with torch.no_grad():`
and outside `with network:`; lines 283-295 inside `with network:` and outside
`torch.no_grad`), each with `guidance_scale=1`. -/
def iterationPredictNoiseCalls : List PredictNoiseCall :=
  [ ⟨false, false, .outputLatent, .positivePrompt, 1⟩,
    ⟨false, false, .inputLatent, .neutralPrompt, 1⟩,
    ⟨false, false, .inputLatent, .unconditionalPrompt, 1⟩,
    ⟨true, true, .inputLatent, .targetPrompt, 1⟩ ]

/-- One `train_util.get_noisy_image` call of the training iteration: which
image file it opens, the value `torch.manual_seed` was called with just
before it, and its `start_timesteps` / `total_timesteps` arguments. -/
structure GetNoisyImageCall where
  image : String
  seed : ℕ
  start_timesteps : ℕ
  total_timesteps : ℕ
deriving DecidableEq, Repr

/-- The two `get_noisy_image` calls of one iteration (train_lora.py lines
210-229): `seed = random.randint(0, 2*15)` is drawn once, then
`generator = torch.manual_seed(seed)` is re-run before each call; the input
image uses `total_timesteps=timesteps_to`, the output image
`total_timesteps=timesteps_to+1`, both with `start_timesteps=0`. -/
def noisyLatentCalls (seed timesteps_to : ℕ) (img1 img2 : String) :
    GetNoisyImageCall × GetNoisyImageCall :=
  (⟨img1, seed, 0, timesteps_to⟩, ⟨img2, seed, 0, timesteps_to + 1⟩)

/-- A prompt role value in `PromptSettings`: either a single string or a
list of strings. -/
inductive Prompt where
  | str (s : String)
  | list (l : List String)
deriving DecidableEq, Repr

/-- The four prompt roles of one `PromptSettings` (the fields read by the
prompt-encoding loop at train_lora.py lines 124-129 and 149-158; resolution
and the other fields play no part in the claims below). -/
structure PromptSettings where
  target : Prompt
  positive : Prompt
  neutral : Prompt
  unconditional : Prompt
deriving DecidableEq, Repr

/-- A value stored in the `PromptEmbedsCache`: the explicit empty-result
marker `cache[key] = []` (line 137), or the result of
`train_util.encode_prompts(tokenizer, text_encoder, prompts)` on a given
list of prompt strings. -/
inductive CacheVal where
  | emptyMarker
  | encoded (prompts : List String)
deriving DecidableEq, Repr

/-- Modelled from the spec: `PromptEmbedsCache` (defined in `prompt_util.py`,
which is not part of this source tree) is, per spec §3 and §4.1, a mapping
from prompt-role-key — a literal string, or the `"positive"`/`"attributes"`
sentinel keys for list-valued roles — to a stored value, with absent keys
reading as `None`.  We model it as a function `String → Option CacheVal`,
`none` for absent. -/
def PromptEmbedsCache : Type := String → Option CacheVal

/-- The empty cache: every key absent. -/
def PromptEmbedsCache.empty : PromptEmbedsCache := fun _ => none

/-- Write `cache[key] = v`. -/
def PromptEmbedsCache.put (cache : PromptEmbedsCache) (key : String)
    (v : CacheVal) : PromptEmbedsCache :=
  fun k => if k = key then some v else cache k

/-- The sentinel key chosen for a list-valued prompt role (train_lora.py
lines 132-135): `'positive'` when the value equals `settings.positive`,
else `'attributes'`. -/
def listKey (settings : PromptSettings) (p : Prompt) : String :=
  if p = settings.positive then "positive" else "attributes"

/-- The state of the prompt-encoding phase: the cache, plus the log of
text-encoder invocations `(key, strings encoded)` in order. -/
structure EncodeState where
  cache : PromptEmbedsCache
  encoderCalls : List (String × List String)

/-- One pass of the inner loop at train_lora.py lines 131-147 for one prompt
role value `p`: list-valued roles key through `listKey`; an empty list stores
the empty marker with no encoder call; otherwise the encoder runs only when
the key reads as `None`.  String-valued roles key by the literal string and
run the encoder (on the singleton list) only when the string is uncached. -/
def processPrompt (settings : PromptSettings) (st : EncodeState) (p : Prompt) :
    EncodeState :=
  match p with
  | .list l =>
    let key := listKey settings p
    if l.length = 0 then
      { st with cache := st.cache.put key .emptyMarker }
    else if st.cache key = none then
      { cache := st.cache.put key (.encoded l),
        encoderCalls := st.encoderCalls ++ [(key, l)] }
    else st
  | .str s =>
    if st.cache s = none then
      { cache := st.cache.put s (.encoded [s]),
        encoderCalls := st.encoderCalls ++ [(s, [s])] }
    else st

/-- The four roles in the order the loop visits them (lines 124-129). -/
def settingsPrompts (settings : PromptSettings) : List Prompt :=
  [settings.target, settings.positive, settings.neutral, settings.unconditional]

/-- Processing one `PromptSettings`: fold `processPrompt` over its four
roles. -/
def processSettings (st : EncodeState) (settings : PromptSettings) : EncodeState :=
  (settingsPrompts settings).foldl (processPrompt settings) st

/-- Modelled from the spec: reading `cache[role]` when building the
`PromptEmbedsPair` (lines 152-155).  `prompt_util.py` is not in the source
tree; per spec §3 the cache keys list-valued roles by the same
`"positive"`/`"attributes"` sentinels the write path uses, and string-valued
roles by the literal string. -/
def cacheLookup (settings : PromptSettings) (cache : PromptEmbedsCache)
    (p : Prompt) : Option CacheVal :=
  match p with
  | .str s => cache s
  | .list _ => cache (listKey settings p)

/-- The embeddings a `PromptEmbedsPair` is constructed with (train_lora.py
lines 149-158), in the source's argument order. -/
structure PromptEmbedsPair where
  target : Option CacheVal
  positive : Option CacheVal
  unconditional : Option CacheVal
  neutral : Option CacheVal
deriving DecidableEq, Repr

/-- Build the `PromptEmbedsPair` for one settings from the current cache. -/
def mkPromptPair (st : EncodeState) (settings : PromptSettings) : PromptEmbedsPair :=
  ⟨cacheLookup settings st.cache settings.target,
   cacheLookup settings st.cache settings.positive,
   cacheLookup settings st.cache settings.unconditional,
   cacheLookup settings st.cache settings.neutral⟩

/-- The whole prompt-encoding phase (lines 118-158): starting from the empty
cache, process each settings' roles and append its `PromptEmbedsPair`. -/
def runPromptEncoding (prompts : List PromptSettings) :
    EncodeState × List PromptEmbedsPair :=
  prompts.foldl
    (fun acc settings =>
      let st := processSettings acc.1 settings
      (st, acc.2 ++ [mkPromptPair st settings]))
    (⟨PromptEmbedsCache.empty, []⟩, [])

/-- A concrete `PromptSettings` whose positive role is the non-empty list
`["a"]` and whose other roles are plain strings. -/
def exampleSettingsA : PromptSettings :=
  ⟨Prompt.str "t1", Prompt.list ["a"], Prompt.str "n1", Prompt.str "u1"⟩

/-- A second concrete `PromptSettings` whose positive role is the distinct
non-empty list `["b"]`. -/
def exampleSettingsB : PromptSettings :=
  ⟨Prompt.str "t2", Prompt.list ["b"], Prompt.str "n2", Prompt.str "u2"⟩

/-- The invariant of the prompt-encoding phase: the keys the text encoder
has been invoked on are pairwise distinct, and every such key is present in
the cache (so a later visit cannot re-trigger the encoder on it). -/
def EncodeState.Good (st : EncodeState) : Prop :=
  (st.encoderCalls.map Prod.fst).Nodup ∧
  ∀ k ∈ st.encoderCalls.map Prod.fst, st.cache k ≠ none

theorem PromptEmbedsCache.put_ne_none (cache : PromptEmbedsCache) (key : String)
    (v : CacheVal) (k : String) (h : cache k ≠ none ∨ k = key) :
    cache.put key v k ≠ none := by
  unfold PromptEmbedsCache.put
  split_ifs with hk
  · simp
  · exact h.resolve_right hk

theorem processPrompt_good (settings : PromptSettings) (st : EncodeState)
    (p : Prompt) (h : st.Good) : (processPrompt settings st p).Good := by
  obtain ⟨h1, h2⟩ := h
  have step : ∀ (key : String) (l : List String),
      st.cache key = none →
      ((st.encoderCalls ++ [(key, l)]).map Prod.fst).Nodup ∧
      ∀ k ∈ (st.encoderCalls ++ [(key, l)]).map Prod.fst,
        st.cache.put key (.encoded l) k ≠ none := by
    intro key l hkey
    constructor
    · simp only [List.map_append, List.map_cons, List.map_nil, List.nodup_append]
      refine ⟨h1, List.nodup_singleton _, ?_⟩
      intro a ha hb
      simp only [List.mem_singleton] at hb
      subst hb
      exact h2 a ha hkey
    · intro k hk
      simp only [List.map_append, List.map_cons, List.map_nil, List.mem_append,
        List.mem_singleton] at hk
      rcases hk with hk | hk
      · exact PromptEmbedsCache.put_ne_none _ _ _ _ (.inl (h2 k hk))
      · exact PromptEmbedsCache.put_ne_none _ _ _ _ (.inr hk)
  cases p with
  | list l =>
    simp only [processPrompt]
    split_ifs with hl hc
    · exact ⟨h1, fun k hk => PromptEmbedsCache.put_ne_none _ _ _ _ (.inl (h2 k hk))⟩
    · exact step _ l hc
    · exact ⟨h1, h2⟩
  | str s =>
    simp only [processPrompt]
    split_ifs with hc
    · exact step s [s] hc
    · exact ⟨h1, h2⟩

theorem processSettings_good (st : EncodeState) (settings : PromptSettings)
    (h : st.Good) : (processSettings st settings).Good := by
  unfold processSettings settingsPrompts
  simp only [List.foldl_cons, List.foldl_nil]
  exact processPrompt_good _ _ _ (processPrompt_good _ _ _
    (processPrompt_good _ _ _ (processPrompt_good _ _ _ h)))

theorem runPromptEncoding_fold_good (prompts : List PromptSettings)
    (acc : EncodeState × List PromptEmbedsPair) (h : acc.1.Good) :
    (prompts.foldl
      (fun acc settings =>
        let st := processSettings acc.1 settings
        (st, acc.2 ++ [mkPromptPair st settings])) acc).1.Good := by
  induction prompts generalizing acc with
  | nil => exact h
  | cons s ss ih => exact ih _ (processSettings_good _ _ h)

/-- Once the cache holds a value at `"positive"` it keeps it: string roles
write only to absent keys, list roles write through `"positive"` only when
they equal `settings.positive` — and that role is the non-empty `.list P`,
so neither the empty-marker write nor an encoder write can hit an occupied
`"positive"` key. -/
theorem processPrompt_keeps_positive (settings : PromptSettings) (P : List String)
    (hpos : settings.positive = Prompt.list P) (hP : P ≠ [])
    (st : EncodeState) (p : Prompt) (v : CacheVal)
    (h : st.cache "positive" = some v) :
    (processPrompt settings st p).cache "positive" = some v := by
  cases p with
  | str s =>
    simp only [processPrompt]
    split_ifs with hc
    · have hs : s ≠ "positive" := by
        intro hs
        rw [hs, h] at hc
        cases hc
      simp only [PromptEmbedsCache.put, if_neg (Ne.symm hs)]
      exact h
    · exact h
  | list l =>
    by_cases hkey : Prompt.list l = settings.positive
    · have hl : l = P := by
        rw [hpos] at hkey
        injection hkey
      have hkeyeq : listKey settings (Prompt.list l) = "positive" := by
        simp [listKey, hkey]
      simp only [processPrompt, hkeyeq]
      split_ifs with hl0 hc
      · exact absurd (hl ▸ List.length_eq_zero.mp hl0) hP
      · rw [h] at hc
        cases hc
      · exact h
    · have hkeyeq : listKey settings (Prompt.list l) = "attributes" := by
        simp [listKey, hkey]
      simp only [processPrompt, hkeyeq]
      have hne : ("positive" : String) ≠ "attributes" := by decide
      split_ifs with hl0 hc
      · simp only [PromptEmbedsCache.put, if_neg hne]
        exact h
      · simp only [PromptEmbedsCache.put, if_neg hne]
        exact h
      · exact h

/-- Before the `"positive"` key is written, any role other than the literal
string `"positive"` leaves it either absent or holding the encoding of the
settings' own (non-empty, list-valued) positive role. -/
theorem processPrompt_positive_invariant (settings : PromptSettings) (P : List String)
    (hpos : settings.positive = Prompt.list P) (hP : P ≠ [])
    (st : EncodeState) (p : Prompt) (hstr : p ≠ Prompt.str "positive")
    (h : st.cache "positive" = none ∨
      st.cache "positive" = some (CacheVal.encoded P)) :
    (processPrompt settings st p).cache "positive" = none ∨
      (processPrompt settings st p).cache "positive" = some (CacheVal.encoded P) := by
  cases p with
  | str s =>
    have hs : s ≠ "positive" := fun hs => hstr (by rw [hs])
    simp only [processPrompt]
    split_ifs with hc
    · simp only [PromptEmbedsCache.put, if_neg (Ne.symm hs)]
      exact h
    · exact h
  | list l =>
    by_cases hkey : Prompt.list l = settings.positive
    · have hl : l = P := by
        rw [hpos] at hkey
        injection hkey
      have hkeyeq : listKey settings (Prompt.list l) = "positive" := by
        simp [listKey, hkey]
      simp only [processPrompt, hkeyeq]
      split_ifs with hl0 hc
      · exact absurd (hl ▸ List.length_eq_zero.mp hl0) hP
      · right
        simp [PromptEmbedsCache.put, hl]
      · exact h
    · have hkeyeq : listKey settings (Prompt.list l) = "attributes" := by
        simp [listKey, hkey]
      have hne : ("positive" : String) ≠ "attributes" := by decide
      simp only [processPrompt, hkeyeq]
      split_ifs with hl0 hc
      · simp only [PromptEmbedsCache.put, if_neg hne]
        exact h
      · simp only [PromptEmbedsCache.put, if_neg hne]
        exact h
      · exact h

/-- Processing the positive role itself guarantees the `"positive"` key
holds the encoding of that (non-empty, list-valued) role afterwards. -/
theorem processPrompt_positive_role (settings : PromptSettings) (P : List String)
    (hpos : settings.positive = Prompt.list P) (hP : P ≠ [])
    (st : EncodeState)
    (h : st.cache "positive" = none ∨
      st.cache "positive" = some (CacheVal.encoded P)) :
    (processPrompt settings st settings.positive).cache "positive" =
      some (CacheVal.encoded P) := by
  have hkeyeq : listKey settings (Prompt.list P) = "positive" := by
    simp [listKey, hpos]
  rw [hpos]
  simp only [processPrompt, hkeyeq]
  split_ifs with hl0 hc
  · exact absurd (List.length_eq_zero.mp hl0) hP
  · simp [PromptEmbedsCache.put]
  · exact h.resolve_left hc

/-- Processing a whole `PromptSettings` whose positive role is the non-empty
list `P` (and whose target role is not the literal string `"positive"`)
leaves `cache["positive"]` holding the encoding of `P`, provided the key was
absent or already held that encoding. -/
theorem processSettings_sets_positive (S : PromptSettings) (P : List String)
    (hpos : S.positive = Prompt.list P) (hP : P ≠ [])
    (ht : S.target ≠ Prompt.str "positive") (st : EncodeState)
    (h : st.cache "positive" = none ∨
      st.cache "positive" = some (CacheVal.encoded P)) :
    (processSettings st S).cache "positive" = some (CacheVal.encoded P) := by
  unfold processSettings settingsPrompts
  simp only [List.foldl_cons, List.foldl_nil]
  exact processPrompt_keeps_positive S P hpos hP _ _ _
    (processPrompt_keeps_positive S P hpos hP _ _ _
      (processPrompt_positive_role S P hpos hP _
        (processPrompt_positive_invariant S P hpos hP st S.target ht h)))

/-- Processing a whole `PromptSettings` with a non-empty list-valued
positive role never displaces an existing `"positive"` entry. -/
theorem processSettings_keeps_positive (S : PromptSettings) (P' : List String)
    (hpos : S.positive = Prompt.list P') (hP' : P' ≠ [])
    (st : EncodeState) (v : CacheVal)
    (h : st.cache "positive" = some v) :
    (processSettings st S).cache "positive" = some v := by
  unfold processSettings settingsPrompts
  simp only [List.foldl_cons, List.foldl_nil]
  exact processPrompt_keeps_positive S P' hpos hP' _ _ _
    (processPrompt_keeps_positive S P' hpos hP' _ _ _
      (processPrompt_keeps_positive S P' hpos hP' _ _ _
        (processPrompt_keeps_positive S P' hpos hP' _ _ _ h)))

/-! ## Theorems -/

/-- C1: the loss backpropagated each iteration is exactly the MSE between the
reconstructed sample (the target-conditioned prediction put through one
`prev_step`) and the noisy-output latent; the three frozen predictions
(positive, neutral, unconditional) do not enter the loss value. -/
theorem trainingLoss_is_reconstruction_mse (sqrt : ℚ → ℚ) (scheduler : SchedulerConfig)
    (current_timestep : ℤ)
    (positive_latents neutral_latents unconditional_latents target_latents : List ℚ)
    (denoised_latents_inp denoised_latents_out : List ℚ) :
    trainingLoss sqrt scheduler current_timestep positive_latents neutral_latents
        unconditional_latents target_latents denoised_latents_inp denoised_latents_out =
      mseLoss (prevStepList sqrt target_latents current_timestep scheduler
        denoised_latents_inp) denoised_latents_out ∧
    ∀ p n u : List ℚ,
      trainingLoss sqrt scheduler current_timestep p n u target_latents
          denoised_latents_inp denoised_latents_out =
        trainingLoss sqrt scheduler current_timestep positive_latents neutral_latents
          unconditional_latents target_latents denoised_latents_inp denoised_latents_out :=
  ⟨rfl, fun _ _ _ => rfl⟩

/-- C2 counterexample: the claim says the index into the 1000-step timetable
is `round(t * 1000 / max_denoising_steps)` (nearest integer).  At
`max_denoising_steps = 30`, `t = 2` the exact quotient is `66.66…`: the code
truncates to `66` while rounding gives `67`, so on the identity timetable the
fine timestep the code uses differs from the claimed one. -/
theorem current_timestep_not_round_at_30_2 :
    current_timestep (fun i => (i : ℤ)) 30 2 ≠ ((specRoundIndex 30 2 : ℕ) : ℤ) := by
  have h1 : ⌊((2 : ℕ) * 1000 : ℚ) / ((30 : ℕ) : ℚ)⌋ = (66 : ℤ) := by
    rw [Int.floor_eq_iff]
    norm_num
  have h2 : ⌊((2 : ℕ) * 1000 : ℚ) / ((30 : ℕ) : ℚ) + 1 / 2⌋ = (67 : ℤ) := by
    rw [Int.floor_eq_iff]
    norm_num
  simp only [current_timestep, currentTimestepIndex, specRoundIndex, h1, h2]
  decide

/-- C2 amended: the index into the 1000-step timetable is
`⌊t * 1000 / max_denoising_steps⌋` — Python `int()` truncation of the
quotient (floor, as the operands are non-negative) — not rounding to the
nearest integer; equivalently, natural-number division. -/
theorem current_timestep_floor_index (timesteps : ℕ → ℤ)
    (max_denoising_steps timesteps_to : ℕ) :
    current_timestep timesteps max_denoising_steps timesteps_to =
      timesteps (timesteps_to * 1000 / max_denoising_steps) := by
  unfold current_timestep currentTimestepIndex
  congr 1
  rw [show ((timesteps_to : ℚ) * 1000) = ((timesteps_to * 1000 : ℕ) : ℚ) by push_cast; ring,
    Int.floor_toNat, Nat.floor_div_nat, Nat.floor_natCast]

/-- C3: an intermediate checkpoint is written at iteration `i` exactly when
`i` is a multiple of `save.per_steps`, `i ≠ 0` and `i` is not the final
iteration; the final checkpoint is always written; with `iterations = 10`,
`per_steps = 5` the only intermediate checkpoint is at step 5; with
`iterations = 1` (so in particular for any `per_steps > 1`) there is no
intermediate checkpoint. -/
theorem checkpoint_schedule :
    (∀ per_steps iterations i,
      i ∈ intermediateCheckpointSteps per_steps iterations ↔
        i < iterations ∧ i % per_steps = 0 ∧ i ≠ 0 ∧ i ≠ iterations - 1) ∧
    intermediateCheckpointSteps 5 10 = [5] ∧
    (∀ per_steps, intermediateCheckpointSteps per_steps 1 = []) ∧
    (∀ name per_steps iterations,
      name ++ "_last.pt" ∈ checkpointFiles name per_steps iterations) := by
  refine ⟨fun per_steps iterations i => ?_, by decide, fun per_steps => ?_, ?_⟩
  · simp [intermediateCheckpointSteps, savesIntermediateAt, List.mem_filter,
      List.mem_range, and_assoc]
  · simp [intermediateCheckpointSteps, savesIntermediateAt, List.range_succ]
  · intro name per_steps iterations
    simp [checkpointFiles]

/-- C4: the positive (on the output latent), neutral (on the input latent)
and unconditional (on the input latent) predictions run with gradients
disabled and the adapter disabled; the target-conditioned prediction (on the
input latent) runs with the adapter enabled; all four use guidance scale 1. -/
theorem iteration_prediction_contexts :
    (∀ c ∈ iterationPredictNoiseCalls, c.guidance_scale = 1) ∧
    (∀ c ∈ iterationPredictNoiseCalls, c.cond ≠ CondRole.targetPrompt →
      c.gradEnabled = false ∧ c.adapterEnabled = false) ∧
    (⟨false, false, .outputLatent, .positivePrompt, 1⟩ : PredictNoiseCall) ∈
      iterationPredictNoiseCalls ∧
    (⟨false, false, .inputLatent, .neutralPrompt, 1⟩ : PredictNoiseCall) ∈
      iterationPredictNoiseCalls ∧
    (⟨false, false, .inputLatent, .unconditionalPrompt, 1⟩ : PredictNoiseCall) ∈
      iterationPredictNoiseCalls ∧
    (∀ c ∈ iterationPredictNoiseCalls, c.cond = CondRole.targetPrompt →
      c.adapterEnabled = true ∧ c.latent = LatentSource.inputLatent ∧
        c.guidance_scale = 1) := by
  decide

/-- C5: both `get_noisy_image` calls of an iteration are driven by a
generator seeded with the same value; they share `start_timesteps = 0` and
differ in `total_timesteps` by exactly one, so on identical inputs the call
records are identical except for the step count. -/
theorem noisy_latent_calls_share_seed (seed timesteps_to : ℕ) (img1 img2 : String) :
    (noisyLatentCalls seed timesteps_to img1 img2).1.seed =
      (noisyLatentCalls seed timesteps_to img1 img2).2.seed ∧
    (noisyLatentCalls seed timesteps_to img1 img2).1.start_timesteps =
      (noisyLatentCalls seed timesteps_to img1 img2).2.start_timesteps ∧
    (noisyLatentCalls seed timesteps_to img1 img2).2.total_timesteps =
      (noisyLatentCalls seed timesteps_to img1 img2).1.total_timesteps + 1 ∧
    ∀ img : String,
      (noisyLatentCalls seed timesteps_to img img).2 =
        { (noisyLatentCalls seed timesteps_to img img).1 with
          total_timesteps :=
            (noisyLatentCalls seed timesteps_to img img).1.total_timesteps + 1 } :=
  ⟨rfl, rfl, rfl, fun _ => rfl⟩

/-- C6: `prev_step` is a pure function of its arguments (it is a Lean
function), and on a zero model output it returns
`alpha_prod_t_prev ** 0.5 / alpha_prod_t ** 0.5 * sample`, determined solely
by the scheduler's cumulative-alpha tables at the current and previous
timestep and the sample. -/
theorem prev_step_zero_model_output (sqrt : ℚ → ℚ) (scheduler : SchedulerConfig)
    (timestep : ℤ) (sample : ℚ) :
    prev_step sqrt 0 timestep scheduler sample =
      sqrt (alphaProdPrev scheduler timestep) /
        sqrt (scheduler.alphasCumprod timestep) * sample := by
  rcases le_or_lt 0 (prevTimestep scheduler timestep) with h | h
  · simp only [prev_step, alphaProdPrev, if_pos h]
    ring
  · simp only [prev_step, alphaProdPrev, if_neg (not_le.mpr h)]
    ring

/-- C7: the coarse timestep index is sampled by
`torch.randint(1, max_denoising_steps-1, (1,))`, whose support is the
half-open range `[1, max_denoising_steps-1)`: exactly the integers from 1 to
`max_denoising_steps - 2` inclusive. -/
theorem timesteps_to_support (max_denoising_steps t : ℕ) :
    t ∈ timestepsToSupport max_denoising_steps ↔
      1 ≤ t ∧ t ≤ max_denoising_steps - 2 := by
  simp only [timestepsToSupport, Finset.mem_Ico]
  omega

/-- C9: the per-iteration seed comes from `random.randint(0, 2*15)` — the
bound is `2*15 = 30`, not `2**15` — so the seed ranges over the 31 integers
`0..30` and at most 31 distinct noise trajectories occur in a run. -/
theorem seed_support_is_0_to_30 :
    (∀ s, s ∈ seedSupport ↔ s ≤ 30) ∧ seedSupport.card = 31 ∧ seedUpperBound = 30 := by
  refine ⟨fun s => ?_, by decide, rfl⟩
  simp [seedSupport, seedUpperBound, Finset.mem_Icc]

/-- C8: during prompt encoding the text encoder runs at most once per
distinct cache key in a run (the call-log keys are pairwise distinct); a
string-valued role triggers an encoder call only when its literal string is
uncached (a cached string is a no-op); a list-valued role whose list is
empty stores the explicit empty-result marker without any encoder call (the
call log is untouched); and a list-valued role whose key is already cached
is likewise a no-op. -/
theorem encoder_invoked_at_most_once_per_key :
    (∀ prompts : List PromptSettings,
      ((runPromptEncoding prompts).1.encoderCalls.map Prod.fst).Nodup) ∧
    (∀ (settings : PromptSettings) (st : EncodeState),
      processPrompt settings st (Prompt.list []) =
        { st with
          cache := st.cache.put (listKey settings (Prompt.list []))
            CacheVal.emptyMarker }) ∧
    (∀ (settings : PromptSettings) (st : EncodeState) (s : String),
      st.cache s ≠ none → processPrompt settings st (Prompt.str s) = st) ∧
    (∀ (settings : PromptSettings) (st : EncodeState) (l : List String),
      l ≠ [] → st.cache (listKey settings (Prompt.list l)) ≠ none →
      processPrompt settings st (Prompt.list l) = st) := by
  refine ⟨fun prompts => ?_, fun settings st => rfl, fun settings st s h => ?_, ?_⟩
  · exact (runPromptEncoding_fold_good prompts ⟨⟨PromptEmbedsCache.empty, []⟩, []⟩
      ⟨List.nodup_nil, by simp⟩).1
  · simp only [processPrompt, if_neg h]
  · intro settings st l hl hc
    simp only [processPrompt,
      if_neg (fun h0 => hl (List.length_eq_zero.mp h0)), if_neg hc]

/-- C10: list-valued roles are cached under the fixed sentinel keys
`"positive"`/`"attributes"` shared across all `PromptSettings`; therefore
when two settings have different non-empty list-valued positive roles and
are processed in order, the second settings' `PromptEmbedsPair` receives the
embeddings encoded from the first settings' list, not from its own.  (The
first settings' target role must not be the literal string `"positive"`,
which would occupy the sentinel key even earlier.) -/
theorem positive_sentinel_key_collision (S1 S2 : PromptSettings)
    (P1 P2 : List String)
    (h1 : S1.positive = Prompt.list P1) (h2 : S2.positive = Prompt.list P2)
    (hP1 : P1 ≠ []) (hP2 : P2 ≠ []) (hne : P1 ≠ P2)
    (ht : S1.target ≠ Prompt.str "positive") :
    listKey S1 S1.positive = "positive" ∧
    listKey S2 S2.positive = "positive" ∧
    ((runPromptEncoding [S1, S2]).2.map PromptEmbedsPair.positive)[1]? =
      some (some (CacheVal.encoded P1)) ∧
    CacheVal.encoded P1 ≠ CacheVal.encoded P2 := by
  refine ⟨by simp [listKey], by simp [listKey], ?_, by simp [hne]⟩
  have hA : (processSettings ⟨PromptEmbedsCache.empty, []⟩ S1).cache "positive" =
      some (CacheVal.encoded P1) :=
    processSettings_sets_positive S1 P1 h1 hP1 ht _ (Or.inl rfl)
  have hB : (processSettings (processSettings ⟨PromptEmbedsCache.empty, []⟩ S1)
      S2).cache "positive" = some (CacheVal.encoded P1) :=
    processSettings_keeps_positive S2 P2 h2 hP2 _ _ hA
  have hmk : (mkPromptPair
      (processSettings (processSettings ⟨PromptEmbedsCache.empty, []⟩ S1) S2)
      S2).positive = some (CacheVal.encoded P1) := by
    simp only [mkPromptPair]
    rw [h2]
    simp only [cacheLookup]
    rw [show listKey S2 (Prompt.list P2) = "positive" from by simp [listKey, h2]]
    exact hB
  unfold runPromptEncoding
  simp only [List.foldl_cons, List.foldl_nil, List.nil_append, List.map_cons,
    List.map_nil, List.map_append]
  simp [hmk]

/-- C10 witness: the collision realized at the concrete settings
`exampleSettingsA` (positive role `["a"]`) and `exampleSettingsB` (positive
role `["b"]`): the second pair's positive embedding is the one encoded from
`["a"]`. -/
theorem positive_sentinel_key_collision_witness :
    listKey exampleSettingsA exampleSettingsA.positive = "positive" ∧
    listKey exampleSettingsB exampleSettingsB.positive = "positive" ∧
    ((runPromptEncoding [exampleSettingsA, exampleSettingsB]).2.map
      PromptEmbedsPair.positive)[1]? = some (some (CacheVal.encoded ["a"])) ∧
    CacheVal.encoded ["a"] ≠ CacheVal.encoded ["b"] :=
  positive_sentinel_key_collision exampleSettingsA exampleSettingsB ["a"] ["b"]
    rfl rfl (by decide) (by decide) (by decide) (by decide)

end TrainLora
